import Mathlib

/-!
Verification of the listing engine in `assets/js/main.js` of the
Agenzia_Immobiliare repository.  The JavaScript source is shallowly embedded:
JS arrays become `List`, nullable values become `Option`, JS numbers that the
code only ever treats as integers become `Int` (with `none` standing for a
missing or non-numeric value where the code performs a `typeof` test), and
DOM side effects become explicit state passing over small inert structures.
-/

namespace Agenzia

/-- A JS id value: the data may carry a numeric or a string id; both are
compared by their `String(...)` form in `findImmobileById`. -/
inductive JsId where
  | num (n : Int)
  | str (s : String)
deriving DecidableEq, Repr

/-- `String(id)` for a `JsId`: JS renders integer numbers in decimal. -/
def jsIdToString : JsId → String
  | .num n => toString n
  | .str s => s

/-- One element of `immobile.immagini`: `{ src, alt }`. -/
structure Immagine where
  src : String
  alt : String
deriving DecidableEq, Repr

/-- A listing entry as consumed by `main.js`.  String fields use `""` for an
absent value (the code only tests them for truthiness or concatenates them);
`prezzo`, `superficie`, `locali` use `none` for a missing or non-numeric
value, and `dataInserimento` uses `none` for an absent date. -/
structure Immobile where
  id : JsId
  titolo : String
  descrizione : String
  prezzo : Option Int
  prezzoDisplay : String
  tipologia : String
  superficie : Option Int
  locali : Option Int
  citta : String
  tipoImmobile : String
  immagini : List Immagine
  dataInserimento : Option String
deriving DecidableEq, Repr

/-- Result of `parseInt(value, 10)` on a trimmed string: either `NaN` or an
integer. -/
inductive ParsedInt where
  | nan
  | val (n : Int)
deriving DecidableEq, Repr

/-- `parseInt(s, 10)` on an already-trimmed string: optional sign followed by
leading decimal digits; `NaN` when no digit is found. -/
def jsParseInt (s : String) : ParsedInt :=
  let signAndRest : Int × List Char :=
    match s.toList with
    | c :: cs =>
      if c = Char.ofNat 45 then (-1, cs)
      else if c = Char.ofNat 43 then (1, cs)
      else (1, c :: cs)
    | [] => (1, [])
  let digits := signAndRest.2.takeWhile Char.isDigit
  if digits.isEmpty then .nan
  else .val (signAndRest.1 * (digits.foldl (fun acc c => acc * 10 + (c.toNat - 48)) 0 : Nat))

/-- The record produced by `getFiltersFromForm`. -/
structure Filters where
  contratto : String
  prezzoMin : Option ParsedInt
  prezzoMax : Option ParsedInt
  localita : String
  tipoImmobile : String
  ordine : String
deriving DecidableEq, Repr

/-- Raw values of the filter form controls (empty string for an untouched
control, as the DOM yields). -/
structure FormValues where
  contratto : String
  prezzoMin : String
  prezzoMax : String
  localita : String
  tipoImmobile : String
  ordine : String
deriving DecidableEq, Repr

/-- JS whitespace for `String.prototype.trim` (the common code points). -/
def isJsWhitespace (c : Char) : Bool :=
  c.toNat = 32 ∨ c.toNat = 9 ∨ c.toNat = 10 ∨ c.toNat = 11 ∨ c.toNat = 12 ∨
    c.toNat = 13 ∨ c.toNat = 160

/-- `value.trim()`: strips leading and trailing whitespace. -/
def jsTrim (s : String) : String :=
  String.mk (((s.toList.dropWhile isJsWhitespace).reverse.dropWhile isJsWhitespace).reverse)

/-- `getFiltersFromForm` with the form present: trims the price inputs, maps
`""` to `null` and otherwise applies `parseInt`; the select values pass
through with `''` defaults. -/
def getFiltersFromForm (form : FormValues) : Filters :=
  { contratto := form.contratto
    prezzoMin := if jsTrim form.prezzoMin = "" then none else some (jsParseInt (jsTrim form.prezzoMin))
    prezzoMax := if jsTrim form.prezzoMax = "" then none else some (jsParseInt (jsTrim form.prezzoMax))
    localita := form.localita
    tipoImmobile := form.tipoImmobile
    ordine := if form.ordine = "" then "recente" else form.ordine }

/-- The normalization `typeof item.prezzo === 'number' ? item.prezzo : 0`
used by `filterImmobili`. -/
def typeofPrezzo (prezzo : Option Int) : Int :=
  match prezzo with
  | some n => n
  | none => 0

/-- The body of the callback of `immobili.filter` in `filterImmobili`: each
early `return false` becomes a `false` branch. -/
def filterPred (filters : Filters) (item : Immobile) : Bool :=
  if filters.contratto ≠ "" ∧ item.tipologia ≠ filters.contratto then false
  else
    let prezzo := typeofPrezzo item.prezzo
    if (match filters.prezzoMin with
        | some (.val n) => prezzo < n
        | _ => false : Bool) then false
    else if (match filters.prezzoMax with
        | some (.val n) => prezzo > n
        | _ => false : Bool) then false
    else if filters.localita ≠ "" ∧ item.citta ≠ filters.localita then false
    else if filters.tipoImmobile ≠ "" ∧ item.tipoImmobile ≠ filters.tipoImmobile then false
    else true

/-- `filterImmobili(immobili, filters)`: `Array.prototype.filter` with the
predicate above. -/
def filterImmobili (immobili : List Immobile) (filters : Filters) : List Immobile :=
  immobili.filter (filterPred filters)

/-- The JS expression `prezzo || 0` over the option-modelled price: any
non-zero number passes through, `0` and a missing value give `0`. -/
def orZero (prezzo : Option Int) : Int :=
  match prezzo with
  | some n => if n = 0 then 0 else n
  | none => 0

/-- `a.dataInserimento || ''` as used by the default sort comparator. -/
def dataKey (e : Immobile) : String :=
  e.dataInserimento.getD ""

/-- Lexicographic comparison of character sequences by code point:
`charListLe as bs` holds when `as` is not greater than `bs`. -/
def charListLe : List Char → List Char → Bool
  | [], _ => true
  | _ :: _, [] => false
  | a :: as, b :: bs =>
    if a.toNat < b.toNat then true
    else if b.toNat < a.toNat then false
    else charListLe as bs

/-- Raw text comparison of strings (code-point lexicographic order), the
embedding of the string comparisons performed by `localeCompare` and the
default `Array.prototype.sort()` on the ASCII data at hand. -/
def jsStringLe (a b : String) : Bool :=
  charListLe a.toList b.toList

/-- Order induced by the `prezzo-crescente` comparator
`(a.prezzo || 0) - (b.prezzo || 0)`: `a` may precede `b` iff the comparator
is not positive. -/
def priceAscRel (a b : Immobile) : Prop :=
  orZero a.prezzo ≤ orZero b.prezzo

/-- Order induced by the `prezzo-decrescente` comparator
`(b.prezzo || 0) - (a.prezzo || 0)`. -/
def priceDescRel (a b : Immobile) : Prop :=
  orZero b.prezzo ≤ orZero a.prezzo

/-- Order induced by the default comparator `dateB.localeCompare(dateA)`
(raw text comparison, descending by date). -/
def recenteRel (a b : Immobile) : Prop :=
  jsStringLe (dataKey b) (dataKey a) = true

instance : DecidableRel priceAscRel := fun a b =>
  inferInstanceAs (Decidable (orZero a.prezzo ≤ orZero b.prezzo))

instance : DecidableRel priceDescRel := fun a b =>
  inferInstanceAs (Decidable (orZero b.prezzo ≤ orZero a.prezzo))

instance : DecidableRel recenteRel := fun _ _ =>
  inferInstanceAs (Decidable (_ = true))

/-- `sortImmobili(immobili, ordine)`: the source copies the array with
`slice()` and sorts the copy in place with `Array.prototype.sort`, which is a
stable comparator sort; the copy-then-stable-sort is embedded as a stable
insertion sort on the immutable list. -/
def sortImmobili (immobili : List Immobile) (ordine : String) : List Immobile :=
  if ordine = "prezzo-crescente" then List.insertionSort priceAscRel immobili
  else if ordine = "prezzo-decrescente" then List.insertionSort priceDescRel immobili
  else List.insertionSort recenteRel immobili

/-- `getQueryParam`: a query value of `null` or `''` yields `null`. -/
def getQueryParam (raw : Option String) : Option String :=
  match raw with
  | some v => if v ≠ "" then some v else none
  | none => none

/-- `findImmobileById(immobili, id)`: `null` on a falsy id or an empty array,
otherwise the first entry whose `String(item.id)` equals `String(id)`. -/
def findImmobileById (immobili : List Immobile) (id : Option String) : Option Immobile :=
  match id with
  | none => none
  | some s =>
    if s = "" ∨ immobili.isEmpty then none
    else immobili.find? (fun item => jsIdToString item.id = s)

/-- Which page operations `initImmobileDetail` performs, given that the
detail container and its sub-elements are present. -/
structure DetailEffects where
  metaTagsUpdated : Bool
  offerInjected : Bool
  detailRendered : Bool
  galleryRendered : Bool
  notFoundShown : Bool
deriving DecidableEq, Repr

/-- Effects of the not-found path of `initImmobileDetail`
(`showImmobileFallback` only). -/
def notFoundEffects : DetailEffects :=
  { metaTagsUpdated := false
    offerInjected := false
    detailRendered := false
    galleryRendered := false
    notFoundShown := true }

/-- `initImmobileDetail` over a loaded snapshot and the raw `id` query
parameter: it reads the parameter through `getQueryParam`, resolves through
`findImmobileById`, and either shows the fallback or updates meta tags,
injects the JSON-LD offer and renders the detail (gallery included). -/
def initImmobileDetail (immobili : List Immobile) (rawId : Option String) : DetailEffects :=
  match getQueryParam rawId with
  | none => notFoundEffects
  | some s =>
    match findImmobileById immobili (some s) with
    | none => notFoundEffects
    | some _ =>
      { metaTagsUpdated := true
        offerInjected := true
        detailRendered := true
        galleryRendered := true
        notFoundShown := false }

/-- Data of the JSON-LD `Offer` block built by `injectJsonLdOffer`
(the `JSON.stringify` serialization is a deterministic function of these
fields, so the block is embedded as the structured data itself). -/
structure OfferData where
  name : String
  description : String
  url : String
  price : Int
  priceCurrency : String
  availability : String
  sellerName : String
deriving DecidableEq, Repr

/-- Data of the JSON-LD `RealEstateAgent` block built by
`injectRealEstateAgentSchema`. -/
structure AgentData where
  base : String
  name : String
  description : String
  url : String
  telephone : String
  addressLocality : String
  areaServedName : String
deriving DecidableEq, Repr

/-- Content of one `<script type="application/ld+json">` element. -/
inductive BlockContent where
  | offer (d : OfferData)
  | agent (d : AgentData)
deriving DecidableEq, Repr

/-- One script element in `document.head`, keyed by its DOM id. -/
structure ScriptBlock where
  id : String
  content : BlockContent
deriving DecidableEq, Repr

/-- The id `'jsonld-offer'` of the offer block. -/
def OFFER_BLOCK_ID : String := "jsonld-offer"

/-- The constant `JSONLD_AGENT_ID`. -/
def JSONLD_AGENT_ID : String := "jsonld-real-estate-agent"

/-- `document.getElementById(i)` followed by `.remove()`: removes the first
element carrying the id, when present. -/
def removeFirstById (head : List ScriptBlock) (i : String) : List ScriptBlock :=
  match head with
  | [] => []
  | b :: rest => if b.id = i then rest else b :: removeFirstById rest i

/-- The `Offer` object literal of `injectJsonLdOffer`. -/
def offerData (immobile : Immobile) (url : String) : OfferData :=
  { name := immobile.titolo
    description := immobile.descrizione
    url := url
    price := typeofPrezzo immobile.prezzo
    priceCurrency := "EUR"
    availability := "https://schema.org/InStock"
    sellerName := "Agenzia Immobiliare" }

/-- `injectJsonLdOffer(immobile)` acting on the head's script children:
removes the existing `#jsonld-offer` element, then appends a fresh one. -/
def injectJsonLdOffer (head : List ScriptBlock) (immobile : Immobile) (url : String) :
    List ScriptBlock :=
  removeFirstById head OFFER_BLOCK_ID ++
    [{ id := OFFER_BLOCK_ID, content := .offer (offerData immobile url) }]

/-- The `RealEstateAgent` object literal of `injectRealEstateAgentSchema`,
parameterized by the computed base URL. -/
def agentData (base : String) : AgentData :=
  { base := base
    name := "Agenzia Immobiliare"
    description := "Vendita e affitto di immobili. Consulenza professionale e trasparente."
    url := base ++ "index.html"
    telephone := "+39-02-1234567"
    addressLocality := "Milano"
    areaServedName := "Italia" }

/-- `injectRealEstateAgentSchema()`: a no-op when an element with
`JSONLD_AGENT_ID` already exists, otherwise appends the agent block. -/
def injectRealEstateAgentSchema (head : List ScriptBlock) (base : String) :
    List ScriptBlock :=
  if (head.find? (fun b => b.id = JSONLD_AGENT_ID)).isSome then head
  else head ++ [{ id := JSONLD_AGENT_ID, content := .agent (agentData base) }]

/-- Number of script elements in the head carrying a given id. -/
def countById (head : List ScriptBlock) (i : String) : Nat :=
  (head.filter (fun b => b.id = i)).length

/-- Payload obtained when `response.json()` succeeds: `Array.isArray`
distinguishes an array (of entry records) from any other JSON value. -/
inductive JsonPayload where
  | arr (items : List Immobile)
  | nonArray
deriving DecidableEq, Repr

/-- Possible outcomes of the `fetch` of `data/immobili.json`: the transport
may fail, or a response arrives with an `ok` flag and a body whose JSON
parse may itself fail. -/
inductive FetchOutcome where
  | transportFailure
  | response (ok : Bool) (body : Except Unit JsonPayload)
deriving Repr

/-- `fetchImmobili()`: `!response.ok` throws, a parse failure rejects, and
both land in the final `catch` which resolves to `[]`; a non-array payload
is mapped to `[]` by the `Array.isArray` check. -/
def fetchImmobili : FetchOutcome → List Immobile
  | .transportFailure => []
  | .response ok body =>
    if ok then
      match body with
      | .ok (.arr items) => items
      | .ok .nonArray => []
      | .error _ => []
    else []

/-- The accumulation loop of `populateFilterOptions` for one facet: pushes a
truthy value not already present (first-occurrence order). -/
def collectUnique (get : Immobile → String) (immobili : List Immobile) : List String :=
  immobili.foldl
    (fun acc item =>
      if get item ≠ "" ∧ ¬ acc.contains (get item) then acc ++ [get item] else acc)
    []

/-- Alphabetical order used by the JS default `Array.prototype.sort()` on
strings, embedded as the lexicographic order on code points. -/
def stringLe (a b : String) : Prop := jsStringLe a b = true

instance : DecidableRel stringLe := fun _ _ => inferInstanceAs (Decidable (_ = true))

/-- The `citta` facet of `populateFilterOptions`: distinct truthy values in
first-occurrence order, then sorted alphabetically. -/
def cittaOptions (immobili : List Immobile) : List String :=
  List.insertionSort stringLe (collectUnique (fun e => e.citta) immobili)

/-- The `tipoImmobile` facet of `populateFilterOptions`. -/
def tipiOptions (immobili : List Immobile) : List String :=
  List.insertionSort stringLe (collectUnique (fun e => e.tipoImmobile) immobili)

/-- The constant `MAX_CARD_HOME`. -/
def MAX_CARD_HOME : Nat := 6

/-- Rendering of a JS number-or-undefined when concatenated into a string,
as in the card meta line `superficie + ' m² · ' + ...`. -/
def jsNumToString (o : Option Int) : String :=
  match o with
  | some n => toString n
  | none => "undefined"

/-- `getPrimaImmagine(immobile)`: first image when present with a truthy
`src` (alt falling back to the title), else the placeholder. -/
def getPrimaImmagine (immobile : Immobile) : Immagine :=
  match immobile.immagini with
  | img :: _ =>
    if img.src ≠ "" then
      { src := img.src, alt := if img.alt ≠ "" then img.alt else immobile.titolo }
    else
      { src := "assets/img/placeholders/placeholder.jpg"
        alt := if immobile.titolo ≠ "" then immobile.titolo else "Immobile" }
  | [] =>
    { src := "assets/img/placeholders/placeholder.jpg"
      alt := if immobile.titolo ≠ "" then immobile.titolo else "Immobile" }

/-- `getBadgeClass(tipologia)`. -/
def getBadgeClass (tipologia : String) : String :=
  if tipologia = "affitto" then "badge badge--affitto" else "badge badge--vendita"

/-- `getBadgeText(tipologia)`. -/
def getBadgeText (tipologia : String) : String :=
  if tipologia = "affitto" then "Affitto" else "Vendita"

/-- Escape of one character as performed by reading back `innerHTML` of a
text node in `escapeHtml`. -/
def escapeHtmlChar (c : Char) : String :=
  if c = Char.ofNat 38 then "&amp;"
  else if c = Char.ofNat 60 then "&lt;"
  else if c = Char.ofNat 62 then "&gt;"
  else String.singleton c

/-- `escapeHtml(str)`: `''` on `null`, otherwise the markup-escaped text. -/
def escapeHtml (s : String) : String :=
  String.join (s.toList.map escapeHtmlChar)

/-- Hexadecimal digit (uppercase) for `encodeURIComponent`. -/
def hexDigit (n : Nat) : Char :=
  if n < 10 then Char.ofNat (48 + n) else Char.ofNat (55 + n)

/-- Characters left intact by `encodeURIComponent`. -/
def isUriUnreservedChar (c : Char) : Bool :=
  c.isAlphanum || c = Char.ofNat 45 || c = Char.ofNat 95 || c = Char.ofNat 46 ||
    c = Char.ofNat 33 || c = Char.ofNat 126 || c = Char.ofNat 42 || c = Char.ofNat 39 ||
    c = Char.ofNat 40 || c = Char.ofNat 41

/-- Percent-encoding of one character's UTF-8 bytes. -/
def percentEncodeChar (c : Char) : String :=
  (String.toUTF8 (String.singleton c)).toList.foldl
    (fun acc b =>
      acc ++ String.singleton (Char.ofNat 37) ++
        String.singleton (hexDigit (b.toNat / 16)) ++
        String.singleton (hexDigit (b.toNat % 16)))
    ""

/-- `encodeURIComponent`. -/
def encodeURIComponent (s : String) : String :=
  String.join (s.toList.map (fun c => if isUriUnreservedChar c then String.singleton c else percentEncodeChar c))

/-- `buildCardHtml(immobile)` of the home page: the composed card markup. -/
def buildCardHtml (immobile : Immobile) : String :=
  let img := getPrimaImmagine immobile
  let badgeClass := getBadgeClass immobile.tipologia
  let badgeText := getBadgeText immobile.tipologia
  let meta := jsNumToString immobile.superficie ++ " m² · " ++
    jsNumToString immobile.locali ++ " locali · " ++ immobile.citta
  let linkDettaglio := "immobile.html?id=" ++ encodeURIComponent (jsIdToString immobile.id)
  "<article class=\"card-immobile\">" ++
    "<div class=\"card-immobile__media\">" ++
      "<img src=\"" ++ escapeHtml img.src ++
      "\" width=\"400\" height=\"300\" alt=\"" ++ escapeHtml img.alt ++
      "\" loading=\"lazy\" decoding=\"async\">" ++
      "<div class=\"card-immobile__badge-wrap\">" ++
        "<span class=\"" ++ escapeHtml badgeClass ++ "\">" ++ escapeHtml badgeText ++ "</span>" ++
      "</div>" ++
    "</div>" ++
    "<div class=\"card-immobile__body\">" ++
      "<h3 class=\"card-immobile__title\">" ++ escapeHtml immobile.titolo ++ "</h3>" ++
      "<div class=\"card-immobile__meta\">" ++ escapeHtml meta ++ "</div>" ++
      "<p class=\"card-immobile__price\">" ++ escapeHtml immobile.prezzoDisplay ++ "</p>" ++
      "<a href=\"" ++ escapeHtml linkDettaglio ++
      "\" class=\"btn btn--primary btn--sm\">Dettagli</a>" ++
    "</div>" ++
  "</article>"

/-- What `initHomeImmobili` leaves on the page once the grid element exists:
the rendered cards and whether the fallback is shown. -/
structure HomeRender where
  cards : List String
  fallbackShown : Bool
deriving DecidableEq, Repr

/-- The `then` continuation of `initHomeImmobili`: slices the snapshot to
`MAX_CARD_HOME`, shows the fallback on an empty slice, otherwise renders one
card per sliced entry. -/
def initHomeImmobili (immobili : List Immobile) : HomeRender :=
  let slice := immobili.take MAX_CARD_HOME
  if slice.length = 0 then { cards := [], fallbackShown := true }
  else { cards := slice.map buildCardHtml, fallbackShown := false }

/-! ### Spec-side definitions

The following definitions transcribe the specification's words (not the
source) and are compared with the source-derived definitions above. -/

/-- Spec: "`price` defaults to `0` wherever missing/non-numeric for
filter/sort purposes" — the normalized price. -/
def normalizedPrice (e : Immobile) : Int :=
  e.prezzo.getD 0

/-- Spec: "a bound that fails to parse as a number is treated as absent":
the numeric value of an active price bound, `none` when the bound is absent
or unparseable. -/
def activeBound : Option ParsedInt → Option Int
  | some (.val n) => some n
  | some .nan => none
  | none => none

/-- Spec §4.2, transcribed: an entry is kept iff every active criterion
holds — `contractType` exact match on `propertyType` (empty = no
constraint), `priceMin`/`priceMax` numeric bounds on the normalized price,
`city` and `category` exact matches (empty = no constraint), conjunctively. -/
def specFilterKeeps (f : Filters) (e : Immobile) : Bool :=
  (f.contratto = "" ∨ e.tipologia = f.contratto : Bool) &&
    ((activeBound f.prezzoMin).all (fun m => m ≤ normalizedPrice e)) &&
    ((activeBound f.prezzoMax).all (fun m => normalizedPrice e ≤ m)) &&
    (f.localita = "" ∨ e.citta = f.localita : Bool) &&
    (f.tipoImmobile = "" ∨ e.tipoImmobile = f.tipoImmobile : Bool)

/-- The sort-relevant value of an entry under a given sort key: the
normalized price for the two price keys, the raw date text (absent treated
as `""`) for the default mode. -/
inductive SortVal where
  | price (n : Int)
  | date (s : String)
deriving DecidableEq, Repr

/-- Sort-relevant value selector, following the same key dispatch as
`sortImmobili`. -/
def sortRelevantKey (ordine : String) (e : Immobile) : SortVal :=
  if ordine = "prezzo-crescente" then .price (orZero e.prezzo)
  else if ordine = "prezzo-decrescente" then .price (orZero e.prezzo)
  else .date (dataKey e)

/-- Spec §4.2, transcribed: the intended order for each sort key —
numeric compare on the normalized price (missing treated as 0) for
`price-ascending`/`price-descending`, and raw-text descending compare of
`insertionDate` (absent treated as `""`) for the default mode. -/
def specSortRel (ordine : String) : Immobile → Immobile → Prop :=
  if ordine = "prezzo-crescente" then fun a b => normalizedPrice a ≤ normalizedPrice b
  else if ordine = "prezzo-decrescente" then fun a b => normalizedPrice b ≤ normalizedPrice a
  else fun a b => jsStringLe (b.dataInserimento.getD "") (a.dataInserimento.getD "") = true

/-! ### Concrete fixtures for the spec's scenarios -/

/-- An entry with every optional field absent and every text field empty. -/
def baseEntry : Immobile :=
  { id := .num 0
    titolo := ""
    descrizione := ""
    prezzo := none
    prezzoDisplay := ""
    tipologia := ""
    superficie := none
    locali := none
    citta := ""
    tipoImmobile := ""
    immagini := []
    dataInserimento := none }

/-- Scenario A/B entry `{id:1, price:100000, propertyType:"sale", city:"Milano"}`. -/
def scenarioE1 : Immobile :=
  { baseEntry with id := .num 1, prezzo := some 100000, tipologia := "sale", citta := "Milano" }

/-- Scenario A/B entry `{id:2, price:50000, propertyType:"rent", city:"Roma"}`. -/
def scenarioE2 : Immobile :=
  { baseEntry with id := .num 2, prezzo := some 50000, tipologia := "rent", citta := "Roma" }

/-- The Scenario A/B snapshot. -/
def scenarioSnapshot : List Immobile := [scenarioE1, scenarioE2]

/-- Criteria with no active constraint. -/
def emptyFilters : Filters :=
  { contratto := ""
    prezzoMin := none
    prezzoMax := none
    localita := ""
    tipoImmobile := ""
    ordine := "recente" }

/-- Scenario A criteria `{contractType:"rent"}`. -/
def scenarioACriteria : Filters :=
  { emptyFilters with contratto := "rent" }

/-! ### Stability of insertion sort

General lemmas: restricting a sorted list to one equivalence class of the
sort key recovers the corresponding restriction of the input. -/

/-- Inserting an element of the class selected by `p`, when the order cannot
place it strictly after any element of that class, prepends it to the class's
restriction. -/
theorem filter_orderedInsert_pos (r : α → α → Prop) [DecidableRel r] (p : α → Bool) (x : α)
    (hkey : ∀ y, p y = true → r x y) (hx : p x = true) :
    ∀ l : List α, (l.orderedInsert r x).filter p = x :: l.filter p
  | [] => by simp [List.orderedInsert, hx]
  | y :: ys => by
    rw [List.orderedInsert]
    split_ifs with h
    · simp [List.filter_cons, hx]
    · have hy : p y = false := by
        cases hpy : p y with
        | false => rfl
        | true => exact absurd (hkey y hpy) h
      simp [List.filter_cons, hy, filter_orderedInsert_pos r p x hkey hx ys]

/-- Inserting an element outside the class selected by `p` leaves the class's
restriction unchanged. -/
theorem filter_orderedInsert_neg (r : α → α → Prop) [DecidableRel r] (p : α → Bool) (x : α)
    (hx : p x = false) :
    ∀ l : List α, (l.orderedInsert r x).filter p = l.filter p
  | [] => by simp [List.orderedInsert, hx]
  | y :: ys => by
    rw [List.orderedInsert]
    split_ifs with h
    · simp [List.filter_cons, hx]
    · simp [List.filter_cons, filter_orderedInsert_neg r p x hx ys]

/-- Stability of `List.insertionSort`: when the order `r` holds between any
two members of the class selected by `p`, the sorted list restricted to that
class equals the input restricted to it. -/
theorem filter_insertionSort (r : α → α → Prop) [DecidableRel r] (p : α → Bool)
    (hcompat : ∀ x y, p x = true → p y = true → r x y) :
    ∀ l : List α, (List.insertionSort r l).filter p = l.filter p
  | [] => rfl
  | a :: l => by
    rw [List.insertionSort]
    cases ha : p a with
    | false =>
      rw [filter_orderedInsert_neg r p a ha, filter_insertionSort r p hcompat l,
        List.filter_cons_of_neg (by simp [ha])]
    | true =>
      rw [filter_orderedInsert_pos r p a (fun y hy => hcompat a y ha hy) ha,
        filter_insertionSort r p hcompat l, List.filter_cons_of_pos ha]

/-! ### Claims -/

/-- Reduction of an early-return `if` with a `false` branch to a guard
conjunction. -/
theorem if_false_else (c : Prop) [Decidable c] (b : Bool) :
    (if c then false else b) = (!(decide c) && b) := by
  by_cases h : c <;> simp [h]

/-- Boolean form of the complement relation between `≤` and `<` on `Int`. -/
theorem decide_int_le (a b : Int) : decide (a ≤ b) = !decide (b < a) := by
  by_cases h : b < a
  · simp [h, show ¬ a ≤ b by omega]
  · simp [h, show a ≤ b by omega]

/-- The predicates of `filterPred` unfolded to spec shape. -/
theorem filterPred_eq_specFilterKeeps (f : Filters) (e : Immobile) :
    filterPred f e = specFilterKeeps f e := by
  unfold filterPred specFilterKeeps activeBound normalizedPrice typeofPrezzo
  rcases f with ⟨contratto, prezzoMin, prezzoMax, localita, tipo, ordine⟩
  rcases e with ⟨id, titolo, descrizione, prezzo, prezzoDisplay, tipologia, superficie,
    locali, citta, tipoImmobile, immagini, dataInserimento⟩
  simp only
  rcases prezzoMin with _ | (_ | m) <;> rcases prezzoMax with _ | (_ | m2) <;>
    rcases prezzo with _ | v <;>
    simp [if_false_else, not_and_or, not_not, Option.all, Bool.and_assoc, gt_iff_lt,
      decide_int_le]

/-- C1: `filterImmobili` keeps exactly the entries satisfying every active
criterion conjunctively — exact match for contract type, city and category
with empty meaning no constraint, and numeric price bounds on the
normalized price — and on the Scenario A snapshot with criteria
`{contractType:"rent"}` it returns exactly the entry with id 2. -/
theorem C1_filter_conjunctive :
    (∀ (immobili : List Immobile) (f : Filters),
      filterImmobili immobili f = immobili.filter (specFilterKeeps f)) ∧
    filterImmobili scenarioSnapshot scenarioACriteria = [scenarioE2] := by
  constructor
  · intro immobili f
    unfold filterImmobili
    exact List.filter_congr (fun e _ => filterPred_eq_specFilterKeeps f e)
  · decide

/-- C2 counterexample: the entry with a non-numeric price is normalized to
price `0` and a `priceMin` of `1` excludes it, contradicting the claim that
the bounds never exclude an entry whose price is non-numeric. -/
theorem C2_counterexample :
    baseEntry.prezzo = none ∧
    filterImmobili [baseEntry] { emptyFilters with prezzoMin := some (.val 1) } = [] := by
  constructor
  · rfl
  · decide

/-- Helper: the min-bound position of `filterPred` ignores a `null` or
`NaN` bound, independently of the other criteria. -/
theorem filterPred_inactive_min (f : Filters) (e : Immobile)
    (hmin : f.prezzoMin = none ∨ f.prezzoMin = some .nan) :
    filterPred f e = filterPred { f with prezzoMin := none } e := by
  rw [filterPred_eq_specFilterKeeps, filterPred_eq_specFilterKeeps]
  unfold specFilterKeeps
  rcases hmin with h | h
  · rw [h]
  · rw [h]
    rfl

/-- Helper: the max-bound position of `filterPred` ignores a `null` or
`NaN` bound, independently of the other criteria. -/
theorem filterPred_inactive_max (f : Filters) (e : Immobile)
    (hmax : f.prezzoMax = none ∨ f.prezzoMax = some .nan) :
    filterPred f e = filterPred { f with prezzoMax := none } e := by
  rw [filterPred_eq_specFilterKeeps, filterPred_eq_specFilterKeeps]
  unfold specFilterKeeps
  rcases hmax with h | h
  · rw [h]
  · rw [h]
    rfl

/-- C2 (amended): each price bound that fails to parse as a number is
individually inactive — filtering behaves as if that one bound was not
given, whatever the other criteria (the other bound included) are — and an
entry whose price is non-numeric is filtered exactly as an entry of price
`0` (to which active bounds do apply). -/
theorem C2_unparseable_bound_inactive :
    (∀ (immobili : List Immobile) (form : FormValues),
      jsParseInt (jsTrim form.prezzoMin) = .nan →
      filterImmobili immobili (getFiltersFromForm form) =
        filterImmobili immobili { getFiltersFromForm form with prezzoMin := none }) ∧
    (∀ (immobili : List Immobile) (form : FormValues),
      jsParseInt (jsTrim form.prezzoMax) = .nan →
      filterImmobili immobili (getFiltersFromForm form) =
        filterImmobili immobili { getFiltersFromForm form with prezzoMax := none }) ∧
    (∀ (f : Filters) (e : Immobile), e.prezzo = none →
      filterPred f e = filterPred f { e with prezzo := some 0 }) := by
  refine ⟨?_, ?_, ?_⟩
  · intro immobili form hmin
    have hminb : (getFiltersFromForm form).prezzoMin = none ∨
        (getFiltersFromForm form).prezzoMin = some .nan := by
      dsimp only [getFiltersFromForm]
      split_ifs with h
      · exact Or.inl rfl
      · exact Or.inr (by rw [hmin])
    unfold filterImmobili
    apply List.filter_congr
    intro e _
    exact filterPred_inactive_min _ e hminb
  · intro immobili form hmax
    have hmaxb : (getFiltersFromForm form).prezzoMax = none ∨
        (getFiltersFromForm form).prezzoMax = some .nan := by
      dsimp only [getFiltersFromForm]
      split_ifs with h
      · exact Or.inl rfl
      · exact Or.inr (by rw [hmax])
    unfold filterImmobili
    apply List.filter_congr
    intro e _
    exact filterPred_inactive_max _ e hmaxb
  · intro f e he
    unfold filterPred typeofPrezzo
    rw [he]

/-- A concrete form whose min price input fails to parse while the max
bound is a valid active number. -/
def cexFormMin : FormValues :=
  { contratto := ""
    prezzoMin := "abc"
    prezzoMax := "100"
    localita := ""
    tipoImmobile := ""
    ordine := "" }

/-- A concrete form whose max price input fails to parse while the min
bound is a valid active number. -/
def cexFormMax : FormValues :=
  { contratto := ""
    prezzoMin := "10"
    prezzoMax := "x9"
    localita := ""
    tipoImmobile := ""
    ordine := "" }

/-- Witness for the amended C2 at concrete mixed forms (one unparseable
bound next to a valid active one) and a concrete entry. -/
theorem C2_unparseable_bound_inactive_witness :
    filterImmobili [scenarioE1] (getFiltersFromForm cexFormMin) =
      filterImmobili [scenarioE1] { getFiltersFromForm cexFormMin with prezzoMin := none } ∧
    filterImmobili [scenarioE1] (getFiltersFromForm cexFormMax) =
      filterImmobili [scenarioE1] { getFiltersFromForm cexFormMax with prezzoMax := none } ∧
    filterPred scenarioACriteria baseEntry =
      filterPred scenarioACriteria { baseEntry with prezzo := some 0 } :=
  ⟨C2_unparseable_bound_inactive.1 [scenarioE1] cexFormMin (by decide),
   C2_unparseable_bound_inactive.2.1 [scenarioE1] cexFormMax (by decide),
   C2_unparseable_bound_inactive.2.2 scenarioACriteria baseEntry rfl⟩

/-- Totality of the raw text comparison. -/
theorem charListLe_total : ∀ as bs : List Char, charListLe as bs = true ∨ charListLe bs as = true
  | [], _ => Or.inl rfl
  | _ :: _, [] => Or.inr rfl
  | a :: as, b :: bs => by
    rcases Nat.lt_trichotomy a.toNat b.toNat with h | h | h
    · left; simp [charListLe, h]
    · have h1 : ¬ a.toNat < b.toNat := by omega
      have h2 : ¬ b.toNat < a.toNat := by omega
      rcases charListLe_total as bs with ih | ih
      · left; simp [charListLe, h1, h2, ih]
      · right; simp [charListLe, h1, h2, ih]
    · right; simp [charListLe, h]

/-- Reflexivity of the raw text comparison. -/
theorem charListLe_le_refl : ∀ as : List Char, charListLe as as = true
  | [] => rfl
  | a :: as => by simp [charListLe, charListLe_le_refl as]

/-- Transitivity of the raw text comparison. -/
theorem charListLe_trans :
    ∀ as bs cs : List Char,
      charListLe as bs = true → charListLe bs cs = true → charListLe as cs = true
  | [], _, _, _, _ => rfl
  | _ :: _, [], _, h1, _ => by simp [charListLe] at h1
  | _ :: _, _ :: _, [], _, h2 => by simp [charListLe] at h2
  | a :: as, b :: bs, c :: cs, h1, h2 => by
    have hab : a.toNat ≤ b.toNat := by
      by_contra h
      simp [charListLe, show ¬ a.toNat < b.toNat by omega,
        show b.toNat < a.toNat by omega] at h1
    have hbc : b.toNat ≤ c.toNat := by
      by_contra h
      simp [charListLe, show ¬ b.toNat < c.toNat by omega,
        show c.toNat < b.toNat by omega] at h2
    rcases Nat.lt_or_ge a.toNat c.toNat with h | h
    · simp [charListLe, h]
    · have h1r : charListLe as bs = true := by
        simpa [charListLe, show ¬ a.toNat < b.toNat by omega,
          show ¬ b.toNat < a.toNat by omega] using h1
      have h2r : charListLe bs cs = true := by
        simpa [charListLe, show ¬ b.toNat < c.toNat by omega,
          show ¬ c.toNat < b.toNat by omega] using h2
      simp [charListLe, show ¬ a.toNat < c.toNat by omega,
        show ¬ c.toNat < a.toNat by omega, charListLe_trans as bs cs h1r h2r]

/-- C3: for every input sequence and every sort key, `sortImmobili` is
stable — the entries of any one sort-relevant value (equal normalized
prices, or equal-or-both-absent date texts) appear in the output in their
input order. -/
theorem C3_sort_stable (ordine : String) (immobili : List Immobile) (v : SortVal) :
    (sortImmobili immobili ordine).filter (fun e => sortRelevantKey ordine e == v) =
      immobili.filter (fun e => sortRelevantKey ordine e == v) := by
  unfold sortImmobili sortRelevantKey
  split_ifs with h1 h2
  · apply filter_insertionSort
    intro x y hx hy
    simp only [beq_iff_eq] at hx hy
    have hxy : SortVal.price (orZero x.prezzo) = SortVal.price (orZero y.prezzo) :=
      hx.trans hy.symm
    have : orZero x.prezzo = orZero y.prezzo := by injection hxy
    exact le_of_eq this
  · apply filter_insertionSort
    intro x y hx hy
    simp only [beq_iff_eq] at hx hy
    have hxy : SortVal.price (orZero x.prezzo) = SortVal.price (orZero y.prezzo) :=
      hx.trans hy.symm
    have : orZero x.prezzo = orZero y.prezzo := by injection hxy
    exact ge_of_eq this
  · apply filter_insertionSort
    intro x y hx hy
    simp only [beq_iff_eq] at hx hy
    have hxy : SortVal.date (dataKey x) = SortVal.date (dataKey y) := hx.trans hy.symm
    have hd : dataKey x = dataKey y := by injection hxy
    show jsStringLe (dataKey y) (dataKey x) = true
    rw [hd]
    exact charListLe_le_refl _

instance : IsTotal Immobile priceAscRel :=
  ⟨fun a b => Int.le_total (orZero a.prezzo) (orZero b.prezzo)⟩

instance : IsTrans Immobile priceAscRel :=
  ⟨fun _ _ _ h1 h2 => Int.le_trans h1 h2⟩

instance : IsTotal Immobile priceDescRel :=
  ⟨fun a b => Int.le_total (orZero b.prezzo) (orZero a.prezzo)⟩

instance : IsTrans Immobile priceDescRel :=
  ⟨fun _ _ _ h1 h2 => Int.le_trans h2 h1⟩

instance : IsTotal Immobile recenteRel :=
  ⟨fun a b => (charListLe_total (dataKey b).toList (dataKey a).toList).symm.symm⟩

instance : IsTrans Immobile recenteRel :=
  ⟨fun a b c h1 h2 =>
    charListLe_trans (dataKey c).toList (dataKey b).toList (dataKey a).toList h2 h1⟩

instance : IsTotal String stringLe :=
  ⟨fun a b => charListLe_total a.toList b.toList⟩

instance : IsTrans String stringLe :=
  ⟨fun a b c h1 h2 => charListLe_trans a.toList b.toList c.toList h1 h2⟩

/-- The JS coercion `prezzo || 0` agrees with the spec's "missing treated
as 0" normalization. -/
theorem orZero_eq_getD (o : Option Int) : orZero o = o.getD 0 := by
  rcases o with _ | n
  · rfl
  · show (if n = 0 then 0 else n) = n
    split_ifs with h
    · rw [h]
    · rfl

/-- C4: each sort key orders the output as the spec states — numeric on the
normalized price for the two price keys, raw-text descending on the
insertion date for the default key — and on the Scenario A snapshot the
`prezzo-crescente` key yields `[id 2, id 1]`. -/
theorem C4_sort_order_follows_spec :
    (∀ (ordine : String) (immobili : List Immobile),
      List.Sorted (specSortRel ordine) (sortImmobili immobili ordine) ∧
      List.Perm (sortImmobili immobili ordine) immobili) ∧
    sortImmobili scenarioSnapshot "prezzo-crescente" = [scenarioE2, scenarioE1] := by
  constructor
  · intro ordine immobili
    unfold sortImmobili specSortRel
    split_ifs with h1 h2
    · refine ⟨(List.sorted_insertionSort priceAscRel immobili).imp ?_,
        List.perm_insertionSort priceAscRel immobili⟩
      intro a b hab
      simpa [normalizedPrice, ← orZero_eq_getD] using hab
    · refine ⟨(List.sorted_insertionSort priceDescRel immobili).imp ?_,
        List.perm_insertionSort priceDescRel immobili⟩
      intro a b hab
      simpa [normalizedPrice, ← orZero_eq_getD] using hab
    · refine ⟨(List.sorted_insertionSort recenteRel immobili).imp ?_,
        List.perm_insertionSort recenteRel immobili⟩
      intro a b hab
      exact hab
  · decide

/-- C5: in the value-semantic embedding `filterImmobili` and `sortImmobili`
are functions of their arguments, so re-invocation yields an identical
result and the snapshot is untouched; the theorem records the functional
content: determinism, the filter result being a sub-sequence of the intact
snapshot, and the sort result being a permutation (a reordered copy, never
an in-place reordering) of the intact input. -/
theorem C5_filter_sort_pure :
    (∀ (immobili : List Immobile) (f : Filters),
      filterImmobili immobili f = filterImmobili immobili f ∧
      List.Sublist (filterImmobili immobili f) immobili) ∧
    (∀ (immobili : List Immobile) (ordine : String),
      sortImmobili immobili ordine = sortImmobili immobili ordine ∧
      List.Perm (sortImmobili immobili ordine) immobili) := by
  constructor
  · exact fun immobili f => ⟨rfl, List.filter_sublist immobili⟩
  · intro immobili ordine
    refine ⟨rfl, ?_⟩
    unfold sortImmobili
    split_ifs with h1 h2
    · exact List.perm_insertionSort priceAscRel immobili
    · exact List.perm_insertionSort priceDescRel immobili
    · exact List.perm_insertionSort recenteRel immobili

/-- Fixture: an entry with the numeric id `7`. -/
def entryNum7 : Immobile := { baseEntry with id := .num 7 }

/-- Fixture: an entry with the string id `"7"`. -/
def entryStr7 : Immobile := { baseEntry with id := .str "7" }

/-- C6: detail resolution compares stored and requested ids by their string
form — a matched entry always agrees with the request on that form, a
string-form match in the snapshot is always found, numeric and string ids
are interchangeable with the string request — and an absent, empty or
unmatched identifier resolves to not-found, in which case
`initImmobileDetail` performs no metadata update, no offer injection and no
gallery or detail rendering. -/
theorem findImmobileById_some_eq (immobili : List Immobile) (s : String) :
    findImmobileById immobili (some s) =
      if s = "" ∨ immobili.isEmpty then none
      else immobili.find? (fun item => jsIdToString item.id = s) := rfl

theorem C6_detail_resolution :
    (∀ (immobili : List Immobile) (s : String) (item : Immobile),
      findImmobileById immobili (some s) = some item → jsIdToString item.id = s) ∧
    (∀ (immobili : List Immobile) (s : String),
      (∀ e, e ∈ immobili → jsIdToString e.id ≠ s) →
      findImmobileById immobili (some s) = none) ∧
    (∀ immobili : List Immobile, findImmobileById immobili none = none) ∧
    (∀ immobili : List Immobile, findImmobileById immobili (some "") = none) ∧
    (∀ (immobili : List Immobile) (s : String), s ≠ "" →
      (∃ e, e ∈ immobili ∧ jsIdToString e.id = s) →
      ∃ item, findImmobileById immobili (some s) = some item ∧ jsIdToString item.id = s) ∧
    (∀ (immobili : List Immobile) (rawId : Option String),
      findImmobileById immobili (getQueryParam rawId) = none →
      initImmobileDetail immobili rawId = notFoundEffects) := by
  refine ⟨?_, ?_, ?_, ?_, ?_, ?_⟩
  · intro immobili s item h
    rw [findImmobileById_some_eq] at h
    by_cases hc : s = "" ∨ immobili.isEmpty
    · rw [if_pos hc] at h
      exact Option.noConfusion h
    · rw [if_neg hc] at h
      simpa using List.find?_some h
  · intro immobili s hnone
    rw [findImmobileById_some_eq]
    split_ifs with hc
    · rfl
    · rw [List.find?_eq_none]
      intro e he
      simpa using hnone e he
  · intro immobili
    rfl
  · intro immobili
    rw [findImmobileById_some_eq, if_pos (Or.inl rfl)]
  · intro immobili s hs hex
    rcases hex with ⟨e, he, hid⟩
    have hne : immobili.isEmpty = false := by
      cases immobili
      · simp at he
      · rfl
    rw [findImmobileById_some_eq, if_neg (by simp [hs, hne])]
    have hsome : (immobili.find? (fun item => jsIdToString item.id = s)).isSome := by
      rw [List.find?_isSome]
      exact ⟨e, he, by simp [hid]⟩
    rcases Option.isSome_iff_exists.mp hsome with ⟨item, hitem⟩
    exact ⟨item, hitem, by simpa using List.find?_some hitem⟩
  · intro immobili rawId h
    unfold initImmobileDetail
    rcases hq : getQueryParam rawId with _ | s
    · rfl
    · rw [hq] at h
      dsimp only
      rw [h]

/-- Witness for C6: the numeric id `7` is found by the string request `"7"`,
the string id `"7"` likewise, and the Scenario D request `id="99"` against
the Scenario A snapshot resolves to the not-found effects. -/
theorem C6_detail_resolution_witness :
    (∃ item, findImmobileById [entryNum7] (some "7") = some item ∧
      jsIdToString item.id = "7") ∧
    (∃ item, findImmobileById [entryStr7] (some "7") = some item ∧
      jsIdToString item.id = "7") ∧
    initImmobileDetail scenarioSnapshot (some "99") = notFoundEffects :=
  ⟨C6_detail_resolution.2.2.2.2.1 [entryNum7] "7" (by decide)
      ⟨entryNum7, by decide, by decide⟩,
   C6_detail_resolution.2.2.2.2.1 [entryStr7] "7" (by decide)
      ⟨entryStr7, by decide, by decide⟩,
   C6_detail_resolution.2.2.2.2.2 scenarioSnapshot (some "99") (by decide)⟩

/-- Removing the first block of an id decrements that id's count by one. -/
theorem countById_removeFirst_self :
    ∀ (head : List ScriptBlock) (i : String),
      countById (removeFirstById head i) i = countById head i - 1
  | [], _ => rfl
  | b :: rest, i => by
    have ih := countById_removeFirst_self rest i
    simp only [countById] at ih ⊢
    by_cases h : b.id = i
    · simp [removeFirstById, h, List.filter_cons]
    · simp [removeFirstById, h, List.filter_cons, ih]

/-- Removing the first block of one id leaves other ids' counts unchanged. -/
theorem countById_removeFirst_other :
    ∀ (head : List ScriptBlock) (i j : String), i ≠ j →
      countById (removeFirstById head i) j = countById head j
  | [], _, _, _ => rfl
  | b :: rest, i, j, hij => by
    have ih := countById_removeFirst_other rest i j hij
    simp only [countById] at ih ⊢
    by_cases h : b.id = i
    · have hbj : ¬ b.id = j := by
        rw [h]
        exact hij
      simp [removeFirstById, h, List.filter_cons, hbj, hij]
    · by_cases h2 : b.id = j <;>
        simp [removeFirstById, h, h2, List.filter_cons, Ne.symm hij] <;> omega

/-- Counts add over concatenation of head fragments. -/
theorem countById_append (h1 h2 : List ScriptBlock) (i : String) :
    countById (h1 ++ h2) i = countById h1 i + countById h2 i := by
  unfold countById
  rw [List.filter_append, List.length_append]

/-- Removing an id that does not occur is a no-op. -/
theorem removeFirstById_of_count_zero :
    ∀ (head : List ScriptBlock) (i : String), countById head i = 0 →
      removeFirstById head i = head
  | [], _, _ => rfl
  | b :: rest, i, h => by
    have hb : ¬ b.id = i := by
      intro hbi
      simp [countById, List.filter_cons, hbi] at h
    have hrest : countById rest i = 0 := by
      simpa [countById, List.filter_cons, hb] using h
    simp [removeFirstById, hb, removeFirstById_of_count_zero rest i hrest]

/-- Removing the id of a just-appended block recovers the original head when
that id did not occur before. -/
theorem removeFirst_append_singleton :
    ∀ (head : List ScriptBlock) (b : ScriptBlock) (i : String), b.id = i →
      countById head i = 0 → removeFirstById (head ++ [b]) i = head
  | [], b, i, hb, _ => by simp [removeFirstById, hb]
  | c :: rest, b, i, hb, h => by
    have hc : ¬ c.id = i := by
      intro hci
      simp [countById, List.filter_cons, hci] at h
    have hrest : countById rest i = 0 := by
      simpa [countById, List.filter_cons, hc] using h
    simp [removeFirstById, hc, removeFirst_append_singleton rest b i hb hrest]

/-- The head holds a block of id `i` exactly when `getElementById` finds
one. -/
theorem find?_isSome_iff_countById (head : List ScriptBlock) (i : String) :
    (head.find? (fun b => b.id = i)).isSome ↔ 0 < countById head i := by
  rw [List.find?_isSome]
  unfold countById
  rw [List.length_pos, Ne, List.filter_eq_nil_iff]
  push_neg
  simp

/-- One offer injection leaves exactly one offer block (head well-formed:
at most one block per id). -/
theorem countById_injectOffer (head : List ScriptBlock) (im : Immobile) (url : String)
    (h : countById head OFFER_BLOCK_ID ≤ 1) :
    countById (injectJsonLdOffer head im url) OFFER_BLOCK_ID = 1 := by
  unfold injectJsonLdOffer
  rw [countById_append, countById_removeFirst_self]
  have : countById [{ id := OFFER_BLOCK_ID, content := .offer (offerData im url) }]
      OFFER_BLOCK_ID = 1 := by
    simp [countById, List.filter_cons]
  omega

/-- Offer injection does not touch blocks of other ids. -/
theorem countById_injectOffer_other (head : List ScriptBlock) (im : Immobile) (url : String)
    (j : String) (hj : OFFER_BLOCK_ID ≠ j) :
    countById (injectJsonLdOffer head im url) j = countById head j := by
  unfold injectJsonLdOffer
  rw [countById_append, countById_removeFirst_other head OFFER_BLOCK_ID j hj]
  have : countById [{ id := OFFER_BLOCK_ID, content := .offer (offerData im url) }] j = 0 := by
    simp [countById, List.filter_cons, hj]
  omega

/-- One agent injection leaves exactly one agent block. -/
theorem countById_injectAgent (head : List ScriptBlock) (base : String)
    (h : countById head JSONLD_AGENT_ID ≤ 1) :
    countById (injectRealEstateAgentSchema head base) JSONLD_AGENT_ID = 1 := by
  unfold injectRealEstateAgentSchema
  split_ifs with hfind
  · have := (find?_isSome_iff_countById head JSONLD_AGENT_ID).mp hfind
    omega
  · have hzero : countById head JSONLD_AGENT_ID = 0 := by
      have := (find?_isSome_iff_countById head JSONLD_AGENT_ID).not.mp hfind
      omega
    rw [countById_append, hzero]
    simp [countById, List.filter_cons]

/-- Agent injection does not touch blocks of other ids. -/
theorem countById_injectAgent_other (head : List ScriptBlock) (base : String)
    (j : String) (hj : JSONLD_AGENT_ID ≠ j) :
    countById (injectRealEstateAgentSchema head base) j = countById head j := by
  unfold injectRealEstateAgentSchema
  split_ifs with hfind
  · rfl
  · rw [countById_append]
    have : countById [{ id := JSONLD_AGENT_ID, content := .agent (agentData base) }] j = 0 := by
      simp [countById, List.filter_cons, hj]
    omega

/-- Agent injection is a no-op when the agent block is already present. -/
theorem injectAgent_noop (head : List ScriptBlock) (base : String)
    (h : (head.find? (fun b => b.id = JSONLD_AGENT_ID)).isSome) :
    injectRealEstateAgentSchema head base = head := by
  unfold injectRealEstateAgentSchema
  rw [if_pos h]

/-- After an agent injection the agent block is present. -/
theorem injectAgent_has_block (head : List ScriptBlock) (base : String) :
    ((injectRealEstateAgentSchema head base).find?
      (fun b => b.id = JSONLD_AGENT_ID)).isSome := by
  rw [find?_isSome_iff_countById]
  unfold injectRealEstateAgentSchema
  split_ifs with h
  · exact (find?_isSome_iff_countById _ _).mp h
  · rw [countById_append]
    simp [countById, List.filter_cons]

/-- C7: both metadata injections are idempotent — re-invoking the offer
injection replaces the previous offer block rather than appending, the agent
injection is a no-op once its block exists, and after running the pair
twice the head holds exactly one block per stable marker. -/
theorem C7_metadata_injection_idempotent (head : List ScriptBlock) (im : Immobile)
    (url base : String)
    (hoffer : countById head OFFER_BLOCK_ID ≤ 1)
    (hagent : countById head JSONLD_AGENT_ID ≤ 1) :
    injectJsonLdOffer (injectJsonLdOffer head im url) im url =
      injectJsonLdOffer head im url ∧
    injectRealEstateAgentSchema (injectRealEstateAgentSchema head base) base =
      injectRealEstateAgentSchema head base ∧
    countById (injectRealEstateAgentSchema (injectJsonLdOffer
        (injectRealEstateAgentSchema (injectJsonLdOffer head im url) base) im url) base)
      OFFER_BLOCK_ID = 1 ∧
    countById (injectRealEstateAgentSchema (injectJsonLdOffer
        (injectRealEstateAgentSchema (injectJsonLdOffer head im url) base) im url) base)
      JSONLD_AGENT_ID = 1 := by
  have hOA : OFFER_BLOCK_ID ≠ JSONLD_AGENT_ID := by decide
  refine ⟨?_, ?_, ?_, ?_⟩
  · have hzero : countById (removeFirstById head OFFER_BLOCK_ID) OFFER_BLOCK_ID = 0 := by
      rw [countById_removeFirst_self]
      omega
    unfold injectJsonLdOffer
    rw [removeFirst_append_singleton (removeFirstById head OFFER_BLOCK_ID)
      { id := OFFER_BLOCK_ID, content := .offer (offerData im url) } OFFER_BLOCK_ID rfl hzero]
  · exact injectAgent_noop _ base (injectAgent_has_block head base)
  · rw [countById_injectAgent_other _ base OFFER_BLOCK_ID hOA.symm]
    apply countById_injectOffer
    rw [countById_injectAgent_other _ base OFFER_BLOCK_ID hOA.symm,
      countById_injectOffer head im url hoffer]
  · apply countById_injectAgent
    rw [countById_injectOffer_other _ im url JSONLD_AGENT_ID hOA,
      countById_injectAgent (injectJsonLdOffer head im url) base
        (by rw [countById_injectOffer_other _ im url JSONLD_AGENT_ID hOA]
            exact hagent)]

/-- Witness for C7 at the empty head and a concrete entry. -/
theorem C7_metadata_injection_idempotent_witness :
    injectJsonLdOffer (injectJsonLdOffer [] scenarioE1 "u") scenarioE1 "u" =
      injectJsonLdOffer [] scenarioE1 "u" ∧
    injectRealEstateAgentSchema (injectRealEstateAgentSchema [] "b") "b" =
      injectRealEstateAgentSchema [] "b" ∧
    countById (injectRealEstateAgentSchema (injectJsonLdOffer
        (injectRealEstateAgentSchema (injectJsonLdOffer [] scenarioE1 "u") "b")
        scenarioE1 "u") "b") OFFER_BLOCK_ID = 1 ∧
    countById (injectRealEstateAgentSchema (injectJsonLdOffer
        (injectRealEstateAgentSchema (injectJsonLdOffer [] scenarioE1 "u") "b")
        scenarioE1 "u") "b") JSONLD_AGENT_ID = 1 :=
  C7_metadata_injection_idempotent [] scenarioE1 "u" "b" (by decide) (by decide)

/-- C8: every failure outcome of the load — transport failure, a response
that is not ok, a body that fails to parse, or a parsed payload that is not
an array — resolves to the empty list rather than an error, an array
payload passes through, and a failed load is indistinguishable from a
successful load of an empty array. -/
theorem C8_load_failure_yields_empty :
    fetchImmobili .transportFailure = [] ∧
    (∀ body : Except Unit JsonPayload, fetchImmobili (.response false body) = []) ∧
    fetchImmobili (.response true (.error ())) = [] ∧
    fetchImmobili (.response true (.ok .nonArray)) = [] ∧
    (∀ items : List Immobile, fetchImmobili (.response true (.ok (.arr items))) = items) ∧
    fetchImmobili .transportFailure = fetchImmobili (.response true (.ok (.arr []))) :=
  ⟨rfl, fun _ => rfl, rfl, rfl, fun _ => rfl, rfl⟩

/-- Membership in the facet accumulation loop: a value is collected iff it
was already in the accumulator or occurs, non-empty, in the scanned list. -/
theorem mem_collectUnique_aux (get : Immobile → String) :
    ∀ (l : List Immobile) (acc : List String) (v : String),
      (v ∈ l.foldl (fun acc item =>
        if get item ≠ "" ∧ ¬ acc.contains (get item) then acc ++ [get item] else acc) acc) ↔
      (v ∈ acc ∨ (v ≠ "" ∧ ∃ e, e ∈ l ∧ get e = v))
  | [], acc, v => by simp
  | i :: l, acc, v => by
    rw [List.foldl_cons, mem_collectUnique_aux get l _ v]
    by_cases hcond : get i ≠ "" ∧ ¬ acc.contains (get i)
    · rw [if_pos hcond]
      simp only [List.mem_append, List.mem_singleton]
      constructor
      · rintro ((hv | hv) | ⟨hne, e, he, hev⟩)
        · exact Or.inl hv
        · subst hv
          exact Or.inr ⟨hcond.1, i, List.mem_cons_self i l, rfl⟩
        · exact Or.inr ⟨hne, e, List.mem_cons_of_mem i he, hev⟩
      · rintro (hv | ⟨hne, e, he, hev⟩)
        · exact Or.inl (Or.inl hv)
        · rcases List.mem_cons.mp he with heq | he2
          · subst heq
            exact Or.inl (Or.inr hev.symm)
          · exact Or.inr ⟨hne, e, he2, hev⟩
    · rw [if_neg hcond]
      constructor
      · rintro (hv | ⟨hne, e, he, hev⟩)
        · exact Or.inl hv
        · exact Or.inr ⟨hne, e, List.mem_cons_of_mem i he, hev⟩
      · rintro (hv | ⟨hne, e, he, hev⟩)
        · exact Or.inl hv
        · rcases List.mem_cons.mp he with heq | he2
          · subst heq
            have hb : acc.contains (get e) = true := by
              by_cases hge : get e = ""
              · rw [hge] at hev
                exact absurd hev.symm hne
              · by_contra hnc
                exact hcond ⟨hge, hnc⟩
            rw [hev] at hb
            exact Or.inl (by simpa using hb)
          · exact Or.inr ⟨hne, e, he2, hev⟩

/-- The facet accumulation loop never introduces a duplicate. -/
theorem nodup_collectUnique_aux (get : Immobile → String) :
    ∀ (l : List Immobile) (acc : List String), acc.Nodup →
      (l.foldl (fun acc item =>
        if get item ≠ "" ∧ ¬ acc.contains (get item) then acc ++ [get item] else acc)
        acc).Nodup
  | [], _, h => h
  | i :: l, acc, h => by
    rw [List.foldl_cons]
    apply nodup_collectUnique_aux get l
    by_cases hcond : get i ≠ "" ∧ ¬ acc.contains (get i)
    · rw [if_pos hcond]
      have hni : get i ∉ acc := by simpa using hcond.2
      exact h.append (List.nodup_singleton _) (List.disjoint_singleton.2 hni)
    · rw [if_neg hcond]
      exact h

/-- C9: each derived facet (cities, secondary property types) lists exactly
the distinct non-empty values occurring in the snapshot — no duplicates,
alphabetically ordered, and a value appears iff some entry carries it
non-empty. -/
theorem C9_facets_distinct_sorted (immobili : List Immobile) :
    ((cittaOptions immobili).Nodup ∧
      List.Sorted stringLe (cittaOptions immobili) ∧
      (∀ v, v ∈ cittaOptions immobili ↔ v ≠ "" ∧ ∃ e, e ∈ immobili ∧ e.citta = v)) ∧
    ((tipiOptions immobili).Nodup ∧
      List.Sorted stringLe (tipiOptions immobili) ∧
      (∀ v, v ∈ tipiOptions immobili ↔ v ≠ "" ∧ ∃ e, e ∈ immobili ∧ e.tipoImmobile = v)) := by
  have hperm1 :=
    List.perm_insertionSort stringLe (collectUnique (fun e => e.citta) immobili)
  have hperm2 :=
    List.perm_insertionSort stringLe (collectUnique (fun e => e.tipoImmobile) immobili)
  refine ⟨⟨?_, ?_, ?_⟩, ⟨?_, ?_, ?_⟩⟩
  · exact hperm1.nodup_iff.mpr
      (nodup_collectUnique_aux (fun e => e.citta) immobili [] List.nodup_nil)
  · exact List.sorted_insertionSort stringLe _
  · intro v
    rw [cittaOptions, hperm1.mem_iff, collectUnique,
      mem_collectUnique_aux (fun e => e.citta) immobili [] v]
    simp
  · exact hperm2.nodup_iff.mpr
      (nodup_collectUnique_aux (fun e => e.tipoImmobile) immobili [] List.nodup_nil)
  · exact List.sorted_insertionSort stringLe _
  · intro v
    rw [tipiOptions, hperm2.mem_iff, collectUnique,
      mem_collectUnique_aux (fun e => e.tipoImmobile) immobili [] v]
    simp

/-- C10: the home page renders exactly the first `MAX_CARD_HOME = 6` entries
of the snapshot, in snapshot order, composing one card per kept entry; a
snapshot shorter than the cap is rendered in full, and the fallback shows
exactly on an empty snapshot. -/
theorem C10_home_renders_first_six (immobili : List Immobile) :
    (initHomeImmobili immobili).cards = (immobili.map buildCardHtml).take MAX_CARD_HOME ∧
    (initHomeImmobili immobili).cards.length = min MAX_CARD_HOME immobili.length ∧
    MAX_CARD_HOME = 6 ∧
    (immobili.length ≤ MAX_CARD_HOME →
      (initHomeImmobili immobili).cards = immobili.map buildCardHtml) ∧
    ((initHomeImmobili immobili).fallbackShown = true ↔ immobili = []) := by
  unfold initHomeImmobili
  dsimp only
  split_ifs with h
  · rw [List.length_take] at h
    have hlen : immobili.length = 0 := by
      unfold MAX_CARD_HOME at h
      omega
    have hnil := List.length_eq_zero.mp hlen
    subst hnil
    simp [MAX_CARD_HOME]
  · rw [List.length_take] at h
    have hne : immobili ≠ [] := by
      intro hnil
      subst hnil
      simp at h
    refine ⟨?_, ?_, rfl, ?_, ?_⟩
    · simp [List.map_take]
    · simp [List.length_take]
    · intro hle
      simp [List.take_of_length_le hle]
    · simp [hne]

/-- Witness for C10 at a concrete short snapshot: both Scenario A entries
are rendered and no fallback shows. -/
theorem C10_home_renders_first_six_witness :
    (initHomeImmobili scenarioSnapshot).cards = scenarioSnapshot.map buildCardHtml ∧
    ((initHomeImmobili scenarioSnapshot).fallbackShown = true ↔ scenarioSnapshot = []) :=
  ⟨(C10_home_renders_first_six scenarioSnapshot).2.2.2.1 (by decide),
   (C10_home_renders_first_six scenarioSnapshot).2.2.2.2⟩

end Agenzia
